import Mathlib

/-!
Verification of the go-pidfile library (package `pidfile`): a shallow
embedding of `pidfile.go` (record accessor) and `mutex.go` (lock
coordinator), with theorems checking the natural-language specification
against the code.

Modelling conventions:
* Machine integers are modelled as `Int`/`Nat`.  Go's `int` is 64-bit and
  `Pid = int32`; the conversion `Pid(n)` truncates modulo 2^32 into
  `[-2^31, 2^31)` and is modelled by `wrap32`.
* Timestamps are Unix milliseconds as `Nat` (`gopsutil`'s
  `Process.CreateTime` returns milliseconds; file mtimes are taken at the
  same resolution).
* The environment `Env` carries the state the library touches: the
  caller's own pid (`os.Getpid()`), the pidfile's content and mtime (or
  absence), the process table, and injectable failures for the
  I/O collaborators (read, atomic write, remove).
* Fallible operations return `Except PErr`; state-changing operations
  return the new `Env` alongside.  Error values model the *class* of the
  Go error as seen through `os.IsNotExist` / `isWrappedNotExist` and the
  wrapping discipline of the source; message strings are not modelled,
  but the ownership-mismatch error carries both pids exactly as the
  source's `fmt.Errorf` does.
-/

namespace pidfile

/-- Error classes of the library, as distinguishable by callers of the Go
code (via `os.IsNotExist`, `os.ErrExist`, and the wrapping discipline). -/
inductive PErr where
  /-- `os.ErrNotExist`, or a wrapped not-exist error from `ReadFile`. -/
  | notFound
  /-- `os.ErrExist`, returned by `Lock` when a holder exists. -/
  | alreadyExists
  /-- wrapped `strconv` failure: content did not parse. -/
  | malformed
  /-- a read failure other than not-exist (e.g. permission). -/
  | ioRead
  /-- a process-table query failure other than not-exist. -/
  | procQuery
  /-- `fmt.Errorf("pidfile is held by %d; lock cannot be released by %d", held, req)`. -/
  | ownershipMismatch (held req : Int)
  /-- wrapped failure of `os.Remove`. -/
  | removeFailed
  /-- wrapped failure of the atomic write path in `Write`. -/
  | writeFailed
deriving DecidableEq

/-- On-disk pidfile: its text content and its modification time
(Unix milliseconds). -/
structure FileRec where
  content : String
  mtime : Nat
deriving DecidableEq

/-- Result of querying the process table for a pid: the process does not
exist, the query failed for another reason, or the process exists with
the given creation time in Unix milliseconds (`gopsutil`'s
`Process.CreateTime`, which returns milliseconds). -/
inductive ProcInfo where
  | notExist
  | queryErr
  | created (ms : Nat)
deriving DecidableEq

/-- The state visible to the library: the caller's own pid
(`os.Getpid()`, a 64-bit `int`), the clock used as mtime of a write, the
pidfile (content and mtime, or `none` when absent), the process table,
and injectable collaborator failures. -/
structure Env where
  getpid : Int
  now : Nat
  file : Option FileRec
  proc : Int → ProcInfo
  readFails : Bool
  removeFails : Bool
  writeFails : Bool

/-- Go's `int → int32` conversion: truncate modulo 2^32 into
`[-2^31, 2^31)`.  This is what `Pid(n)` performs (`type Pid int32`). -/
def wrap32 (n : Int) : Int :=
  (n + 2 ^ 31) % 2 ^ 32 - 2 ^ 31

/-- Unicode white space, as Go's `unicode.IsSpace` (used by
`bytes.TrimSpace`): the White_Space property. -/
def isGoSpace (c : Char) : Bool :=
  let n := c.toNat
  (9 ≤ n && n ≤ 13) || n = 32 || n = 0x85 || n = 0xA0 || n = 0x1680 ||
    (0x2000 ≤ n && n ≤ 0x200A) || n = 0x2028 || n = 0x2029 || n = 0x202F ||
    n = 0x205F || n = 0x3000

/-- `bytes.TrimSpace`: drop leading and trailing white space. -/
def trimSpace (l : List Char) : List Char :=
  ((l.dropWhile isGoSpace).reverse.dropWhile isGoSpace).reverse

/-- `1<<64 - 1`, the largest `uint64`. -/
def uint64Max : Nat := 18446744073709551615

/-- `strconv`'s overflow cutoff for base 10, bit size 64:
`maxUint64/10 + 1`.  An accumulator at or above this would overflow when
multiplied by 10. -/
def uintCutoff : Nat := 1844674407370955162

/-- The digit loop of Go's `strconv.ParseUint(s, 10, 64)` on the digit
list `l` with accumulator `n`: fails on a non-digit character, on an
accumulator that would overflow `uint64` when multiplied by 10, and on a
step result exceeding `maxUint64`. -/
def parseUint64 : List Char → Nat → Option Nat
  | [], n => some n
  | c :: cs, n =>
    if ¬ c.isDigit then none
    else if uintCutoff ≤ n then none
    else if uint64Max < n * 10 + (c.toNat - 48) then none
    else parseUint64 cs (n * 10 + (c.toNat - 48))

/-- Sign handling of Go's `strconv.ParseInt`: strip one leading `+` or
`-`, returning whether the number is negated and the remaining
characters. -/
def stripSign (l : List Char) : Bool × List Char :=
  match l with
  | '+' :: rest => (false, rest)
  | '-' :: rest => (true, rest)
  | _ => (false, l)

/-- Go's `strconv.Atoi` = `strconv.ParseInt(s, 10, 0)` on a 64-bit
platform: reject the empty string, strip an optional sign, run the
digit loop, and range-check the magnitude against `int64`
(`un ≥ 1<<63` for positive, `un > 1<<63` for negative, is a range
error).  `none` models any non-nil error (Atoi's syntax and range
errors alike). -/
def atoi (l : List Char) : Option Int :=
  match stripSign l with
  | (_, []) => none
  | (neg, d :: ds) =>
    match parseUint64 (d :: ds) 0 with
    | none => none
    | some un =>
      if neg = false ∧ 2 ^ 63 ≤ un then none
      else if neg = true ∧ 2 ^ 63 < un then none
      else some (if neg then -(un : Int) else (un : Int))

/-- `pidfile.Read`: read the file (not-exist and other I/O failures
propagate with their class), trim surrounding white space, parse with
`strconv.Atoi`, and convert the parsed `int` to `Pid` (int32
truncation). -/
def Read (env : Env) : Except PErr Int :=
  if env.readFails then .error .ioRead
  else
    match env.file with
    | none => .error .notFound
    | some f =>
      match atoi (trimSpace f.content.data) with
      | none => .error .malformed
      | some n => .ok (wrap32 n)

/-- Modelled from the spec: the lock coordinator's internal three-value
read `(pid, mtime, error)` (spec §4.1 "Side effect note"), which
`Holder` and `Unlock` call but which is absent from the sources
(`pidfile.Read` returns only `(pid, error)` while `mutex.go` calls a
three-value `Read`).  Per the spec it behaves as `Read` and additionally
exposes the file's modification time. -/
def readPidMtime (env : Env) : Except PErr (Int × Nat) :=
  if env.readFails then .error .ioRead
  else
    match env.file with
    | none => .error .notFound
    | some f =>
      match atoi (trimSpace f.content.data) with
      | none => .error .malformed
      | some n => .ok (wrap32 n, f.mtime)

/-- `pidfileLock.lockValid`: query the process table for `pid`
(`process.NewProcess` then `CreateTime`; at either step a not-exist
error yields `(false, nil)` and any other error is surfaced).  The
creation time in milliseconds is truncated to whole seconds
(`time.Unix(procCreateUnixMs/1000, 0)`) and the lock is valid iff that
time is strictly before the pidfile's mtime. -/
def lockValid (env : Env) (pid : Int) (mtime : Nat) : Except PErr Bool :=
  match env.proc pid with
  | .notExist => .ok false
  | .queryErr => .error .procQuery
  | .created ms => .ok (decide (ms / 1000 * 1000 < mtime))

/-- `pidfileLock.Holder`: read the record; a not-exist read yields
`(0, nil)`, other read failures are surfaced; then validate with
`lockValid`, surfacing its errors; an invalid lock yields `(0, nil)`
and a valid one the recorded pid. -/
def Holder (env : Env) : Except PErr Int :=
  match readPidMtime env with
  | .error .notFound => .ok 0
  | .error e => .error e
  | .ok (lockPid, lockMtime) =>
    match lockValid env lockPid lockMtime with
    | .error e => .error e
    | .ok false => .ok 0
    | .ok true => .ok lockPid

/-- `pidfile.Write`: substitute the caller's pid for 0, then atomically
replace the file.  NOTE (faithful to the source): the substituted
argument is never used — the content written is
`fmt.Fprintf(f, "%d", os.Getpid())`, the caller's own pid, regardless
of the `pid` argument.  On failure the previous on-disk state is left
untouched (atomicfile abort). -/
def Write (env : Env) (pid : Int) : Except PErr Unit × Env :=
  let _pid := if pid = 0 then wrap32 env.getpid else pid
  if env.writeFails then (.error .writeFailed, env)
  else (.ok (), { env with file := some ⟨toString env.getpid, env.now⟩ })

/-- `pidfileLock.Lock`: substitute the caller's pid for 0; consult
`Holder` (errors surfaced); a nonzero holder yields `os.ErrExist`
without touching the file; otherwise `Write` the (substituted) pid. -/
def Lock (env : Env) (pid : Int) : Except PErr Unit × Env :=
  let pid := if pid = 0 then wrap32 env.getpid else pid
  match Holder env with
  | .error e => (.error e, env)
  | .ok lockPid =>
    if lockPid ≠ 0 then (.error .alreadyExists, env)
    else Write env pid

/-- `pidfileLock.Unlock`: substitute the caller's pid for 0; read the
record (absence yields `os.ErrNotExist`, other read failures are
surfaced); validate (errors surfaced; an invalid lock yields
`os.ErrNotExist` with the file left in place); a pid mismatch yields
the ownership error naming both pids with the file left in place;
otherwise remove the file (failure surfaced, file left in place). -/
def Unlock (env : Env) (pid : Int) : Except PErr Unit × Env :=
  let pid := if pid = 0 then wrap32 env.getpid else pid
  match readPidMtime env with
  | .error .notFound => (.error .notFound, env)
  | .error e => (.error e, env)
  | .ok (lockPid, lockMtime) =>
    match lockValid env lockPid lockMtime with
    | .error e => (.error e, env)
    | .ok false => (.error .notFound, env)
    | .ok true =>
      if lockPid ≠ pid then (.error (.ownershipMismatch lockPid pid), env)
      else if env.removeFails then (.error .removeFailed, env)
      else (.ok (), { env with file := none })

/-! Spec-side definitions: the value of a decimal digit string and the
spec's notion of "parses as a signed decimal integer", written from the
spec's words to compare against the code's `atoi`. -/

/-- Value of a digit list in base 10, with accumulator `acc` (the
mathematical reading of the digit loop). -/
def decAcc (acc : Nat) : List Char → Nat
  | [] => acc
  | c :: cs => decAcc (acc * 10 + (c.toNat - 48)) cs

/-- Value of a digit list in base 10. -/
def digitsVal (ds : List Char) : Nat := decAcc 0 ds

/-- The text is an optionally signed, nonempty run of decimal digits. -/
def SignedDecimal (l : List Char) : Prop :=
  (stripSign l).2 ≠ [] ∧ ∀ c ∈ (stripSign l).2, c.isDigit

/-- The signed integer denoted by an optionally signed digit string. -/
def signedVal (l : List Char) : Int :=
  if (stripSign l).1 then -(digitsVal (stripSign l).2 : Int)
  else (digitsVal (stripSign l).2 : Int)

/-- The spec's parse contract for `Read`, made exact: the text is a
signed decimal integer denoting `n`, and `n` is in the range of the
64-bit signed parse the code performs. -/
def ParsesAsPid (l : List Char) (n : Int) : Prop :=
  SignedDecimal l ∧ n = signedVal l ∧ -(2 ^ 63) ≤ n ∧ n < 2 ^ 63

/-! Concrete environments used by the per-claim theorems. -/

/-- A process with pid 2 and no pidfile on disk. -/
def envC1 : Env :=
  { getpid := 2, now := 99, file := none, proc := fun _ => .notExist,
    readFails := false, removeFails := false, writeFails := false }

/-- A process with pid 2 and no pidfile on disk. -/
def envC2 : Env :=
  { getpid := 2, now := 99, file := none, proc := fun _ => .notExist,
    readFails := false, removeFails := false, writeFails := false }

/-- Pidfile records pid 5 with mtime 1200 ms; process 5 was created at
1500 ms, i.e. after the file's mtime but in the same second. -/
def envC3c : Env :=
  { getpid := 9, now := 99, file := some ⟨"5", 1200⟩,
    proc := fun p => if p = 5 then .created 1500 else .notExist,
    readFails := false, removeFails := false, writeFails := false }

/-- Pidfile records pid 7 with mtime 2500 ms; process 7 was created at
1700 ms, strictly before the mtime even after truncation to seconds. -/
def envC3w : Env :=
  { getpid := 9, now := 99, file := some ⟨"7", 2500⟩,
    proc := fun p => if p = 7 then .created 1700 else .notExist,
    readFails := false, removeFails := false, writeFails := false }

/-- Pidfile validly records pid 5 (created at 100 ms, mtime 1200 ms);
the caller's own pid is 5. -/
def envC4w : Env :=
  { getpid := 5, now := 99, file := some ⟨"5", 1200⟩,
    proc := fun p => if p = 5 then .created 100 else .notExist,
    readFails := false, removeFails := false, writeFails := false }

/-- No pidfile on disk. -/
def envC5a : Env :=
  { getpid := 9, now := 99, file := none, proc := fun _ => .notExist,
    readFails := false, removeFails := false, writeFails := false }

/-- Stale pidfile: records pid 5 but process 5 does not exist. -/
def envC5b : Env :=
  { getpid := 9, now := 99, file := some ⟨"5", 1200⟩,
    proc := fun _ => .notExist,
    readFails := false, removeFails := false, writeFails := false }

/-- Pidfile validly records pid 5; the caller's own pid is 9. -/
def envC6w : Env :=
  { getpid := 9, now := 99, file := some ⟨"5", 1200⟩,
    proc := fun p => if p = 5 then .created 100 else .notExist,
    readFails := false, removeFails := false, writeFails := false }

/-- Pidfile validly records pid 5; the caller's own pid is 5; removal
succeeds. -/
def envC7w : Env :=
  { getpid := 5, now := 99, file := some ⟨"5", 1200⟩,
    proc := fun p => if p = 5 then .created 100 else .notExist,
    readFails := false, removeFails := false, writeFails := false }

/-- Pidfile whose content is `2147483648` = 2^31, one past the largest
`int32`. -/
def envC8c : Env :=
  { getpid := 9, now := 99, file := some ⟨"2147483648", 5⟩,
    proc := fun _ => .notExist,
    readFails := false, removeFails := false, writeFails := false }

/-- Pidfile whose content is `42` with surrounding white space. -/
def envC8w : Env :=
  { getpid := 9, now := 99, file := some ⟨" 42\n", 7⟩,
    proc := fun _ => .notExist,
    readFails := false, removeFails := false, writeFails := false }

/-- Pidfile whose content is `2147483648` = 2^31. -/
def envC9a : Env :=
  { getpid := 9, now := 99, file := some ⟨"2147483648", 5⟩,
    proc := fun _ => .notExist,
    readFails := false, removeFails := false, writeFails := false }

/-- Pidfile whose content is `-5`. -/
def envC9b : Env :=
  { getpid := 9, now := 99, file := some ⟨"-5", 5⟩,
    proc := fun _ => .notExist,
    readFails := false, removeFails := false, writeFails := false }

/-- Every process was created at 1500 ms. -/
def envC10w : Env :=
  { getpid := 9, now := 99, file := none, proc := fun _ => .created 1500,
    readFails := false, removeFails := false, writeFails := false }

/-! Characterization of the digit loop and of `atoi`. -/

theorem le_decAcc (ds : List Char) : ∀ acc : Nat, acc ≤ decAcc acc ds := by
  induction ds with
  | nil => intro acc; exact Nat.le_refl acc
  | cons c cs ih =>
    intro acc
    calc acc ≤ acc * 10 + (c.toNat - 48) := by omega
      _ ≤ decAcc (acc * 10 + (c.toNat - 48)) cs := ih _

theorem parseUint64_eq_some (ds : List Char) : ∀ acc : Nat,
    (∀ c ∈ ds, c.isDigit) → decAcc acc ds ≤ uint64Max →
    parseUint64 ds acc = some (decAcc acc ds) := by
  induction ds with
  | nil => intro acc _ _; rfl
  | cons c cs ih =>
    intro acc hd hle
    have hc : c.isDigit := hd c (List.mem_cons_self _ _)
    have hle' : decAcc (acc * 10 + (c.toNat - 48)) cs ≤ uint64Max := hle
    have hmid := le_decAcc cs (acc * 10 + (c.toNat - 48))
    have hcut : ¬ uintCutoff ≤ acc := by
      unfold uintCutoff
      unfold uint64Max at hle' hmid
      omega
    have hov : ¬ uint64Max < acc * 10 + (c.toNat - 48) := by omega
    show parseUint64 (c :: cs) acc = some (decAcc (acc * 10 + (c.toNat - 48)) cs)
    simp only [parseUint64, hc, not_true, if_false]
    rw [if_neg hcut, if_neg hov]
    exact ih _ (fun a ha => hd a (List.mem_cons_of_mem _ ha)) hle'

theorem parseUint64_overflow (ds : List Char) : ∀ acc : Nat,
    (∀ c ∈ ds, c.isDigit) → acc ≤ uint64Max → uint64Max < decAcc acc ds →
    parseUint64 ds acc = none := by
  induction ds with
  | nil =>
    intro acc _ hacc hgt
    exact absurd hgt (Nat.not_lt.2 hacc)
  | cons c cs ih =>
    intro acc hd hacc hgt
    have hc : c.isDigit := hd c (List.mem_cons_self _ _)
    show parseUint64 (c :: cs) acc = none
    simp only [parseUint64, hc, not_true, if_false]
    by_cases hcut : uintCutoff ≤ acc
    · rw [if_pos hcut]
    · rw [if_neg hcut]
      by_cases hov : uint64Max < acc * 10 + (c.toNat - 48)
      · rw [if_pos hov]
      · rw [if_neg hov]
        exact ih (acc * 10 + (c.toNat - 48))
          (fun a ha => hd a (List.mem_cons_of_mem _ ha)) (Nat.not_lt.1 hov) hgt

theorem parseUint64_nonDigit (ds : List Char) : ∀ acc : Nat,
    (∃ c ∈ ds, ¬ c.isDigit) → parseUint64 ds acc = none := by
  induction ds with
  | nil =>
    rintro acc ⟨c, hc, _⟩
    exact absurd hc (List.not_mem_nil c)
  | cons c cs ih =>
    rintro acc ⟨a, ha, hna⟩
    show parseUint64 (c :: cs) acc = none
    by_cases hc : c.isDigit
    · have hacs : a ∈ cs := by
        rcases List.mem_cons.1 ha with h | h
        · exact absurd (h ▸ hc) hna
        · exact h
      simp only [parseUint64, hc, not_true, if_false]
      by_cases hcut : uintCutoff ≤ acc
      · rw [if_pos hcut]
      · rw [if_neg hcut]
        by_cases hov : uint64Max < acc * 10 + (c.toNat - 48)
        · rw [if_pos hov]
        · rw [if_neg hov]
          exact ih _ ⟨a, hacs, hna⟩
    · simp [parseUint64, hc]

theorem parseUint64_some_iff (ds : List Char) (acc v : Nat) (hacc : acc ≤ uint64Max) :
    parseUint64 ds acc = some v ↔
      (∀ c ∈ ds, c.isDigit) ∧ decAcc acc ds ≤ uint64Max ∧ v = decAcc acc ds := by
  constructor
  · intro h
    by_cases hd : ∀ c ∈ ds, c.isDigit
    · by_cases hle : decAcc acc ds ≤ uint64Max
      · rw [parseUint64_eq_some ds acc hd hle] at h
        exact ⟨hd, hle, (Option.some_inj.1 h).symm⟩
      · rw [parseUint64_overflow ds acc hd hacc (by omega)] at h
        cases h
    · push_neg at hd
      rw [parseUint64_nonDigit ds acc (by simpa using hd)] at h
      cases h
  · rintro ⟨hd, hle, rfl⟩
    exact parseUint64_eq_some ds acc hd hle

theorem atoi_sound (l : List Char) (n : Int) (h : atoi l = some n) :
    ParsesAsPid l n := by
  unfold atoi at h
  rcases hs : stripSign l with ⟨neg, ds⟩
  simp only [hs] at h
  cases ds with
  | nil => exact absurd h (by simp)
  | cons d rest =>
    cases hp : parseUint64 (d :: rest) 0 with
    | none =>
      simp only [hp] at h
      exact absurd h (by simp)
    | some un =>
      simp only [hp] at h
      have hun := (parseUint64_some_iff (d :: rest) 0 un (by unfold uint64Max; omega)).1 hp
      rcases hun with ⟨hdig, hle, hv⟩
      unfold uint64Max at hle
      have hsd : SignedDecimal l := by
        unfold SignedDecimal
        rw [hs]
        exact ⟨by simp, hdig⟩
      have hsv : signedVal l = if neg then -(un : Int) else (un : Int) := by
        unfold signedVal digitsVal
        rw [hs, hv]
      cases neg with
      | false =>
        by_cases hr : 2 ^ 63 ≤ un
        · rw [if_pos ⟨rfl, hr⟩] at h
          exact absurd h (by simp)
        · rw [if_neg (fun hc => hr hc.2), if_neg (fun hc => by simp at hc)] at h
          have hn : n = (un : Int) := by simpa using (Option.some_inj.1 h).symm
          refine ⟨hsd, by rw [hsv, hn]; simp, ?_, ?_⟩
          · rw [hn]; omega
          · rw [hn]
            have : un < 2 ^ 63 := Nat.not_le.1 hr
            exact_mod_cast this
      | true =>
        by_cases hr : 2 ^ 63 < un
        · rw [if_neg (fun hc => by simp at hc), if_pos ⟨rfl, hr⟩] at h
          exact absurd h (by simp)
        · rw [if_neg (fun hc => by simp at hc), if_neg (fun hc => hr hc.2)] at h
          have hn : n = -(un : Int) := by simpa using (Option.some_inj.1 h).symm
          refine ⟨hsd, by rw [hsv, hn]; simp, ?_, ?_⟩
          · rw [hn]
            have : un ≤ 2 ^ 63 := Nat.not_lt.1 hr
            have h2 : (un : Int) ≤ 2 ^ 63 := by exact_mod_cast this
            omega
          · rw [hn]; omega

theorem atoi_complete (l : List Char) (n : Int) (h : ParsesAsPid l n) :
    atoi l = some n := by
  rcases h with ⟨⟨hne, hdig⟩, hval, hlo, hhi⟩
  rcases hs : stripSign l with ⟨neg, ds⟩
  rw [hs] at hne hdig
  unfold signedVal digitsVal at hval
  rw [hs] at hval
  have hne2 : ds ≠ [] := hne
  have hdig2 : ∀ c ∈ ds, c.isDigit := hdig
  have hval2 : n = if neg = true then -(decAcc 0 ds : Int) else (decAcc 0 ds : Int) := hval
  cases ds with
  | nil => exact absurd rfl hne2
  | cons d rest =>
    unfold atoi
    simp only [hs]
    cases neg with
    | false =>
      rw [if_neg (by simp)] at hval2
      have hle : decAcc 0 (d :: rest) ≤ uint64Max := by
        unfold uint64Max
        omega
      simp only [parseUint64_eq_some (d :: rest) 0 hdig2 hle]
      have hr : ¬ 2 ^ 63 ≤ decAcc 0 (d :: rest) := by omega
      rw [if_neg (fun hc => hr hc.2), if_neg (fun hc => by simp at hc)]
      rw [hval2]
      simp
    | true =>
      rw [if_pos rfl] at hval2
      have hle : decAcc 0 (d :: rest) ≤ uint64Max := by
        unfold uint64Max
        omega
      simp only [parseUint64_eq_some (d :: rest) 0 hdig2 hle]
      have hr : ¬ 2 ^ 63 < decAcc 0 (d :: rest) := by omega
      rw [if_neg (fun hc => by simp at hc), if_neg (fun hc => hr hc.2)]
      rw [hval2]
      simp

theorem atoi_some_iff (l : List Char) (n : Int) :
    atoi l = some n ↔ ParsesAsPid l n :=
  ⟨atoi_sound l n, atoi_complete l n⟩

theorem atoi_eq_none (l : List Char) (h : ∀ n : Int, ¬ ParsesAsPid l n) :
    atoi l = none := by
  cases ha : atoi l with
  | none => rfl
  | some n => exact absurd (atoi_sound l n ha) (h n)

/-! Per-claim theorems. -/

/-- Claim C1 (code bug): the round-trip "Write(p) then Read() returns p"
fails for `p` different from the caller's own pid, because `Write`
ignores its (substituted) argument and prints `os.Getpid()`.  Here the
caller's pid is 2: Write(1) succeeds, yet the subsequent Read returns
2, not 1. -/
theorem write_read_roundTrip_bug_c1 :
    (Write envC1 1).1 = .ok () ∧ Read (Write envC1 1).2 = .ok 2 ∧ (2 : Int) ≠ 1 :=
  ⟨rfl, rfl, by omega⟩

/-- Claim C2 (code bug): with no pidfile on disk (so Holder reports no
holder) and caller pid 2, Lock(1) succeeds but the record written
contains "2" — the caller's own pid — instead of the pid argument 1,
because `Write` ignores its argument. -/
theorem lock_writes_callerPid_c2 :
    Holder envC2 = .ok 0 ∧ (Lock envC2 1).1 = .ok () ∧
    (Lock envC2 1).2.file = some ⟨"2", 99⟩ ∧ ("2" : String) ≠ "1" :=
  ⟨rfl, rfl, rfl, by decide⟩

/-- Claim C3 (counterexample): the pidfile records pid 5 with mtime
1200 ms and process 5 exists with creation time 1500 ms, which is NOT
strictly before the mtime; the claim then requires Holder to return
(0, nil), but the code truncates 1500 ms down to 1000 ms before
comparing and returns the recorded pid 5. -/
theorem holder_counterexample_c3 :
    envC3c.file = some ⟨"5", 1200⟩ ∧ envC3c.proc 5 = .created 1500 ∧
    ¬ (1500 : Nat) < 1200 ∧ Holder envC3c = .ok 5 ∧ (5 : Int) ≠ 0 :=
  ⟨rfl, rfl, by omega, rfl, by omega⟩

/-- Claim C3 (amended: the creation time is compared after truncation
to whole seconds): Holder returns (0, nil) when the pidfile is absent,
when the recorded process does not exist, or when the truncated
creation time is not strictly before the pidfile's mtime; it returns
the recorded pid exactly when the process exists and its truncated
creation time is strictly before the mtime; read failures other than
not-found (injected I/O failure, malformed content) and process-table
query failures other than not-found are surfaced as errors. -/
theorem holder_cases_c3 (env : Env) :
    (env.readFails = true → Holder env = .error .ioRead) ∧
    (env.readFails = false → env.file = none → Holder env = .ok 0) ∧
    (∀ f, env.readFails = false → env.file = some f →
      (atoi (trimSpace f.content.data) = none → Holder env = .error .malformed) ∧
      (∀ n, atoi (trimSpace f.content.data) = some n →
        (env.proc (wrap32 n) = .notExist → Holder env = .ok 0) ∧
        (env.proc (wrap32 n) = .queryErr → Holder env = .error .procQuery) ∧
        (∀ ms, env.proc (wrap32 n) = .created ms →
          (ms / 1000 * 1000 < f.mtime → Holder env = .ok (wrap32 n)) ∧
          (¬ ms / 1000 * 1000 < f.mtime → Holder env = .ok 0)))) := by
  refine ⟨?_, ?_, ?_⟩
  · intro hrf
    have hread : readPidMtime env = .error .ioRead := by
      simp [readPidMtime, hrf]
    simp [Holder, hread]
  · intro hrf hf
    have hread : readPidMtime env = .error .notFound := by
      simp [readPidMtime, hrf, hf]
    simp [Holder, hread]
  · intro f hrf hf
    constructor
    · intro ha
      have hread : readPidMtime env = .error .malformed := by
        simp [readPidMtime, hrf, hf, ha]
      simp [Holder, hread]
    · intro n ha
      have hread : readPidMtime env = .ok (wrap32 n, f.mtime) := by
        simp [readPidMtime, hrf, hf, ha]
      refine ⟨?_, ?_, ?_⟩
      · intro hpr
        have hlv : lockValid env (wrap32 n) f.mtime = .ok false := by
          simp [lockValid, hpr]
        simp [Holder, hread, hlv]
      · intro hpr
        have hlv : lockValid env (wrap32 n) f.mtime = .error .procQuery := by
          simp [lockValid, hpr]
        simp [Holder, hread, hlv]
      · intro ms hpr
        constructor
        · intro hlt
          have hlv : lockValid env (wrap32 n) f.mtime = .ok true := by
            simp [lockValid, hpr, hlt]
          simp [Holder, hread, hlv]
        · intro hnlt
          have hlv : lockValid env (wrap32 n) f.mtime = .ok false := by
            simp [lockValid, hpr, hnlt]
          simp [Holder, hread, hlv]

/-- Witness for C3 at a concrete environment: pidfile "7" with mtime
2500 ms, process 7 created at 1700 ms (truncated to 1000 ms, strictly
before 2500 ms), so Holder reports pid 7. -/
theorem holder_cases_c3_witness : Holder envC3w = .ok 7 := by
  have h := ((holder_cases_c3 envC3w).2.2 ⟨"7", 2500⟩ rfl rfl).2 7 rfl
  have h2 := (h.2.2 1700 rfl).1 (by show (1700 : Nat) / 1000 * 1000 < 2500; omega)
  rw [show wrap32 7 = 7 from by decide] at h2
  exact h2

/-- Claim C4: whenever Holder reports a nonzero holder (the caller's
own pid included), Lock fails with the already-exists error and the
environment — in particular the pidfile — is unchanged. -/
theorem lock_alreadyHeld_c4 (env : Env) (pid h : Int)
    (hh : Holder env = .ok h) (hnz : h ≠ 0) :
    Lock env pid = (.error .alreadyExists, env) := by
  unfold Lock
  simp only [hh]
  rw [if_pos hnz]

/-- Witness for C4: the pidfile validly records pid 5 and the caller's
own pid is 5; Lock(5) — by the holder itself — still fails with the
already-exists error and the file is unchanged. -/
theorem lock_alreadyHeld_c4_witness :
    Lock envC4w 5 = (.error .alreadyExists, envC4w) ∧
    envC4w.file = some ⟨"5", 1200⟩ :=
  ⟨lock_alreadyHeld_c4 envC4w 5 5 rfl (by omega), rfl⟩

/-- Claim C5: Unlock fails with the not-found error both when the
pidfile is absent and when it is present but the lock is invalid
(stale); in the stale case the environment — hence the file on disk —
is unchanged. -/
theorem unlock_stale_c5 (env : Env) (pid : Int) :
    (env.readFails = false → env.file = none →
      Unlock env pid = (.error .notFound, env)) ∧
    (∀ rp mt, readPidMtime env = .ok (rp, mt) → lockValid env rp mt = .ok false →
      Unlock env pid = (.error .notFound, env) ∧ (Unlock env pid).2.file = env.file) := by
  constructor
  · intro hrf hf
    have hread : readPidMtime env = .error .notFound := by
      simp [readPidMtime, hrf, hf]
    simp [Unlock, hread]
  · intro rp mt hr hv
    have h1 : Unlock env pid = (.error .notFound, env) := by
      simp [Unlock, hr, hv]
    exact ⟨h1, by rw [h1]⟩

/-- Witness for C5: absent pidfile (envC5a) and stale pidfile (envC5b,
records pid 5 but the process does not exist); both Unlock calls fail
with not-found and the stale file stays on disk. -/
theorem unlock_stale_c5_witness :
    Unlock envC5a 3 = (.error .notFound, envC5a) ∧
    Unlock envC5b 3 = (.error .notFound, envC5b) ∧
    (Unlock envC5b 3).2.file = some ⟨"5", 1200⟩ :=
  ⟨(unlock_stale_c5 envC5a 3).1 rfl rfl,
   ((unlock_stale_c5 envC5b 3).2 5 1200 rfl rfl).1,
   by rw [((unlock_stale_c5 envC5b 3).2 5 1200 rfl rfl).2]; rfl⟩

/-- Claim C6: when the lock is valid but the recorded pid differs from
the (0-substituted) pid argument, Unlock fails with the ownership
error naming the recorded pid and the requested pid, and the
environment — hence the file on disk — is unchanged. -/
theorem unlock_mismatch_c6 (env : Env) (pid rp : Int) (mt : Nat)
    (hr : readPidMtime env = .ok (rp, mt)) (hv : lockValid env rp mt = .ok true)
    (hne : rp ≠ (if pid = 0 then wrap32 env.getpid else pid)) :
    Unlock env pid =
      (.error (.ownershipMismatch rp (if pid = 0 then wrap32 env.getpid else pid)), env) := by
  unfold Unlock
  simp only [hr, hv]
  rw [if_pos hne]

/-- Witness for C6: the pidfile validly records pid 5; the caller (pid
9) calls Unlock(0); the error names recorded pid 5 and requested pid
9, and the file stays on disk. -/
theorem unlock_mismatch_c6_witness :
    Unlock envC6w 0 = (.error (.ownershipMismatch 5 9), envC6w) ∧
    envC6w.file = some ⟨"5", 1200⟩ := by
  have h := unlock_mismatch_c6 envC6w 0 5 1200 rfl rfl (by decide)
  rw [show (if (0 : Int) = 0 then wrap32 envC6w.getpid else 0) = 9 from by decide] at h
  exact ⟨h, rfl⟩

/-- Claim C7: when the lock is valid and the recorded pid equals the
(0-substituted) pid argument, Unlock deletes the pidfile and succeeds
(the file is gone afterwards); if deletion fails the error is surfaced
and the environment — the file included — is unchanged, i.e. the lock
is still held. -/
theorem unlock_success_c7 (env : Env) (pid rp : Int) (mt : Nat)
    (hr : readPidMtime env = .ok (rp, mt)) (hv : lockValid env rp mt = .ok true)
    (heq : rp = (if pid = 0 then wrap32 env.getpid else pid)) :
    (env.removeFails = false →
      Unlock env pid = (.ok (), { env with file := none }) ∧
      (Unlock env pid).2.file = none) ∧
    (env.removeFails = true → Unlock env pid = (.error .removeFailed, env)) := by
  constructor
  · intro hrm
    have h1 : Unlock env pid = (.ok (), { env with file := none }) := by
      unfold Unlock
      simp only [hr, hv]
      rw [if_neg (by simp [heq]), if_neg (by simp [hrm])]
    exact ⟨h1, by rw [h1]⟩
  · intro hrm
    unfold Unlock
    simp only [hr, hv]
    rw [if_neg (by simp [heq]), if_pos hrm]

/-- Witness for C7: the pidfile validly records pid 5 and the caller's
pid is 5; Unlock(0) succeeds and the file is gone afterwards. -/
theorem unlock_success_c7_witness :
    Unlock envC7w 0 = (.ok (), { envC7w with file := none }) ∧
    (Unlock envC7w 0).2.file = none :=
  (unlock_success_c7 envC7w 0 5 1200 rfl rfl (by decide)).1 rfl

/-- Claim C8 (counterexample): the pidfile content "2147483648" parses
as the signed decimal integer 2147483648, yet Read returns
-2147483648 — the int32 truncation — not the parsed integer. -/
theorem read_counterexample_c8 :
    ParsesAsPid (trimSpace "2147483648".data) 2147483648 ∧
    Read envC8c = .ok (-2147483648) ∧ (-2147483648 : Int) ≠ 2147483648 :=
  ⟨atoi_sound _ 2147483648 rfl, rfl, by decide⟩

/-- Claim C8 (amended: "parses" is the 64-bit signed parse the code
performs, and the parsed integer is returned after conversion to a
32-bit Pid by truncation modulo 2^32 — the identity whenever the value
fits in int32): Read fails with the not-found class when the file is
absent, fails with the malformed class when the trimmed content does
not so parse (empty content included), and otherwise returns the
32-bit truncation of the parsed integer. -/
theorem read_contract_c8 (env : Env) (f : FileRec) (hrf : env.readFails = false) :
    (env.file = none → Read env = .error .notFound) ∧
    (env.file = some f →
      ((∀ n : Int, ¬ ParsesAsPid (trimSpace f.content.data) n) →
        Read env = .error .malformed) ∧
      (∀ n : Int, ParsesAsPid (trimSpace f.content.data) n →
        Read env = .ok (wrap32 n))) := by
  refine ⟨fun hf => ?_, fun hf => ⟨fun hno => ?_, fun n hn => ?_⟩⟩
  · simp [Read, hrf, hf]
  · simp [Read, hrf, hf, atoi_eq_none _ hno]
  · simp [Read, hrf, hf, atoi_complete _ n hn]

/-- Witness for C8: content " 42\n" trims to "42", parses to 42, and
Read returns 42. -/
theorem read_contract_c8_witness : Read envC8w = .ok 42 := by
  have h := ((read_contract_c8 envC8w ⟨" 42\n", 7⟩ rfl).2 rfl).2 42
    ⟨⟨by decide, by decide⟩, by decide, by decide, by decide⟩
  rw [show wrap32 42 = 42 from by decide] at h
  exact h

/-- Claim C9: Read performs no 32-bit range check — the content
"2147483648" (= 2^31, outside the signed 32-bit range) is returned as
its truncation modulo 2^32, the negative number -2147483648, with no
error; and the negative content "-5" is returned as -5 with no
error. -/
theorem read_no32bitCheck_c9 :
    Read envC9a = .ok (-2147483648) ∧
    (-2147483648 : Int) = 2147483648 - 2 ^ 32 ∧
    Read envC9b = .ok (-5) ∧ (-5 : Int) < 0 :=
  ⟨rfl, by decide, rfl, by decide⟩

/-- Claim C10: the validity comparison truncates the creation
timestamp to whole seconds (integer division of the millisecond value
by 1000, discarding the remainder) before the strict comparison with
the mtime; consequently a process created after the mtime but within
the same second (the mtime not lying on a second boundary) is judged a
valid lock holder. -/
theorem lockValid_truncation_c10 (env : Env) (p : Int) (mt ms : Nat)
    (hp : env.proc p = .created ms) :
    lockValid env p mt = .ok (decide (ms / 1000 * 1000 < mt)) ∧
    (mt < ms → ms / 1000 = mt / 1000 → mt % 1000 ≠ 0 →
      lockValid env p mt = .ok true) := by
  constructor
  · simp [lockValid, hp]
  · intro h1 h2 h3
    have hlt : ms / 1000 * 1000 < mt := by omega
    simp [lockValid, hp, hlt]

/-- Witness for C10: process created at 1500 ms, pidfile mtime 1200 ms
— the process started after the file was written, in the same second —
yet the lock is judged valid. -/
theorem lockValid_truncation_c10_witness :
    lockValid envC10w 7 1200 = .ok true ∧ (1200 : Nat) < 1500 :=
  ⟨(lockValid_truncation_c10 envC10w 7 1200 1500 rfl).2 (by omega) (by omega) (by omega),
   by omega⟩

end pidfile
